import Mathlib

/-!
Shallow embedding of the telemetry polling and accumulation engine of
get_stats.py: normalization of raw sensor identifiers, per-category
collection rounds with isolated per-sensor failures, read-modify-write
appends to the per-category JSON dataset files, and the cycle scheduler
with its minimum-interval check and optional duration budget.

Python strings are modelled as lists of characters.  Python str.replace
with a non-empty pattern (the only way the program calls it) is modelled
by replaceAll below: every non-overlapping occurrence of the pattern is
replaced, scanning left to right.
-/

namespace GetStats

/-- Test that p is a leading segment of s (Python startswith). -/
def startsWith : List Char → List Char → Bool
  | [], _ => true
  | _ :: _, [] => false
  | p :: ps, c :: cs => p == c && startsWith ps cs

/-- Test that p is a trailing segment of s (Python endswith). -/
def endsWith (p s : List Char) : Bool :=
  startsWith p.reverse s.reverse

/-- Test that p occurs contiguously somewhere in s (Python substring membership). -/
def occursIn (p : List Char) : List Char → Bool
  | [] => startsWith p []
  | c :: cs => startsWith p (c :: cs) || occursIn p cs

/-- Fuel-indexed worker for replaceAll.  Every recursive call consumes at
least one character of the string, so fuel equal to the string length is
always sufficient; the fuel only makes the recursion structural. -/
def replaceAllAux (pat repl : List Char) : Nat → List Char → List Char
  | 0, s => s
  | _ + 1, [] => []
  | fuel + 1, c :: cs =>
    if 0 < pat.length ∧ startsWith pat (c :: cs) = true then
      repl ++ replaceAllAux pat repl fuel (List.drop pat.length (c :: cs))
    else
      c :: replaceAllAux pat repl fuel cs

/-- Python str.replace for a non-empty pattern: replace every
non-overlapping occurrence of pat in s by repl, scanning left to right
and resuming after each replacement.  An empty pattern leaves s
unchanged; the program only ever calls replace with non-empty literal
patterns. -/
def replaceAll (pat repl s : List Char) : List Char :=
  replaceAllAux pat repl s.length s

/-- Reading field of a sensor JSON body: a number, or the sentinel used
when the field is absent (the Python default value "N/A"). -/
inductive ReadingVal where
  | num (val : ℚ)
  | na
deriving DecidableEq

/-- One record as written to the dataset files: Name, Timestamp, Reading. -/
structure SensorReading where
  name : List Char
  timestamp : List Char
  reading : ReadingVal
deriving DecidableEq

/-- parse_psu_name from get_stats.py: Python str.replace rewrites every
occurrence of the vendor pattern in the member id. -/
def parse_psu_name (member_id : List Char) (is_gpu : Bool) : List Char :=
  if is_gpu then
    replaceAll "power_PWR_PDB_PSU".data "GPU_TRAY_PSU".data member_id
  else
    replaceAll "PWR_MB_PSU".data "CPU_TRAY_PSU".data member_id

/-- parse_fan_name from get_stats.py: remove SPD_, then if the result
ends with the two-character marker, rewrite it via str.replace. -/
def parse_fan_name (member_id0 : List Char) : List Char :=
  let member_id := replaceAll "SPD_".data "".data member_id0
  if endsWith "_F".data member_id then
    replaceAll "_F".data " Front".data member_id
  else if endsWith "_R".data member_id then
    replaceAll "_R".data " Rear".data member_id
  else
    member_id

/-- parse_temp_name from get_stats.py. -/
def parse_temp_name (member_id : List Char) : List Char :=
  if occursIn "TEMP_PDB_PSU".data member_id then
    replaceAll "TEMP_PDB_PSU".data "TEMP_GPU_TRAY_PSU".data member_id
  else if occursIn "TEMP_MB_PSU".data member_id then
    replaceAll "TEMP_MB_PSU".data "TEMP_CPU_TRAY_PSU".data member_id
  else
    member_id

/-- Fan normalization as claim C8 reads it, modelled from the spec words:
strip the marker and rewrite only the trailing two-character suffix,
leaving interior occurrences intact. -/
def parse_fan_name_claimed (member_id0 : List Char) : List Char :=
  let member_id := replaceAll "SPD_".data "".data member_id0
  if endsWith "_F".data member_id then
    List.take (member_id.length - 2) member_id ++ " Front".data
  else if endsWith "_R".data member_id then
    List.take (member_id.length - 2) member_id ++ " Rear".data
  else
    member_id

/-- Endpoint discovery (get_psu_endpoints): partition the Members list of
the sensor directory by the two naming markers. -/
def get_psu_endpoints (members : List (List Char)) :
    List (List Char) × List (List Char) :=
  (members.filter fun m => occursIn "power_PWR_PDB_".data m,
   members.filter fun m => occursIn "PWR_MB_PSU".data m)

/-- Python str.split on a single separator character. -/
def splitOnChar (sep : Char) : List Char → List (List Char)
  | [] => [[]]
  | c :: cs =>
    match splitOnChar sep cs with
    | [] => [[c]]
    | g :: gs => if c == sep then [] :: g :: gs else (c :: g) :: gs

/-- Last path segment of an endpoint url, as psu_url.split("/")[-1]. -/
def lastSegment (url : List Char) : List Char :=
  ((splitOnChar '/' url).getLast?).getD []

/-- Result of one per-sensor future: either a resolved reading (with the
timestamp stamped at query time), or a raised exception. -/
inductive Outcome where
  | ok (reading : ReadingVal) (timestamp : List Char)
  | exn
deriving DecidableEq

/-- A submitted PSU query: the endpoint url together with the outcome its
future resolves to. -/
structure PSUQuery where
  url : List Char
  outcome : Outcome
deriving DecidableEq

/-- Successful query_psu result for a PSU endpoint url: the record built
from the Reading field, the query timestamp and the parsed member id. -/
def query_psu (url : List Char) (is_gpu : Bool) (r : ReadingVal) (ts : List Char) :
    SensorReading :=
  { name := parse_psu_name (lastSegment url) is_gpu
    timestamp := ts
    reading := r }

/-- Accelerator-tray PSU fan-out loop (first executor block of the main
loop): failed futures are logged and skipped, resolved ones appended. -/
def gpuCollect (qs : List PSUQuery) : List SensorReading :=
  qs.filterMap fun q =>
    match q.outcome with
    | Outcome.ok r ts => some (query_psu q.url true r ts)
    | Outcome.exn => none

/-- Compute-tray PSU fan-out loop (second executor block of the main
loop): as for the accelerator tray, except each appended record first
has every occurrence of power_ removed from its Name field. -/
def cpuCollect (qs : List PSUQuery) : List SensorReading :=
  qs.filterMap fun q =>
    match q.outcome with
    | Outcome.ok r ts =>
      let data := query_psu q.url false r ts
      some { data with name := replaceAll "power_".data "".data data.name }
    | Outcome.exn => none

/-- Running total_power update for one resolved future: numeric readings
are added, the sentinel contributes nothing, failed futures are skipped
before reaching the accumulation. -/
def addReading (acc : ℚ) (q : PSUQuery) : ℚ :=
  match q.outcome with
  | Outcome.ok (ReadingVal.num x) _ => acc + x
  | _ => acc

/-- Accumulated total_power over one list of futures, starting from 0. -/
def totalOf (qs : List PSUQuery) : ℚ := qs.foldl addReading 0

/-- Numeric value a record contributes to the total: the sentinel counts
as zero. -/
def readingValue : ReadingVal → ℚ
  | ReadingVal.num x => x
  | ReadingVal.na => 0

/-- One power-collector round of the main loop: the accelerator-tray
batch, then the compute-tray batch, then the synthetic total reading
stamped with the current instant and appended to the same batch. -/
def powerRound (gpu cpu : List PSUQuery) (totalTs : List Char) : List SensorReading :=
  gpuCollect gpu ++ cpuCollect cpu ++
    [{ name := "Total Power in W".data
       timestamp := totalTs
       reading := ReadingVal.num (cpu.foldl addReading (gpu.foldl addReading 0)) }]

/-- One element of the Fans array: either a JSON object query_fan can
read, or a value on which the per-sensor work raises (caught and
logged by the fan executor loop). -/
inductive FanEntry where
  | valid (memberId : List Char) (reading : ReadingVal) (ts : List Char)
  | junk
deriving DecidableEq

/-- Fan fan-out loop of the main loop: raised futures are skipped. -/
def fanRound (fans : List FanEntry) : List SensorReading :=
  fans.filterMap fun e =>
    match e with
    | FanEntry.valid mid r ts =>
      some { name := parse_fan_name mid, timestamp := ts, reading := r }
    | FanEntry.junk => none

/-- One element of the Temperatures array, as for FanEntry. -/
inductive TempEntry where
  | valid (memberId : List Char) (reading : ReadingVal) (ts : List Char)
  | junk
deriving DecidableEq

/-- Temperature fan-out loop of the main loop: raised futures are skipped. -/
def tempRound (temps : List TempEntry) : List SensorReading :=
  temps.filterMap fun e =>
    match e with
    | TempEntry.valid mid r ts =>
      some { name := parse_temp_name mid, timestamp := ts, reading := r }
    | TempEntry.junk => none

/-- State of a dataset file when append_to_json_file opens it: missing
(open raises FileNotFoundError), holding only whitespace, holding text
json.load rejects (json.JSONDecodeError), or holding a record sequence. -/
inductive FileState where
  | absent
  | blank
  | malformed
  | wellFormed (records : List SensorReading)
deriving DecidableEq

/-- Existing data recovered at the top of append_to_json_file: the two
caught exceptions and the empty-content check all yield no prior data. -/
def readExisting : FileState → List SensorReading
  | FileState.absent => []
  | FileState.blank => []
  | FileState.malformed => []
  | FileState.wellFormed rs => rs

/-- append_to_json_file: read the prior sequence, extend it with the new
batch, and rewrite the whole file with the result. -/
def append_to_json_file (fs : FileState) (data : List SensorReading) : FileState :=
  FileState.wellFormed (readExisting fs ++ data)

/-- Repeated appends, one batch per cycle in cycle order. -/
def appendBatches (fs : FileState) (batches : List (List SensorReading)) : FileState :=
  batches.foldl append_to_json_file fs

/-- The three per-category dataset files. -/
structure Datasets where
  psu : FileState
  fan : FileState
  temp : FileState
deriving DecidableEq

/-- Inputs one iteration of the main loop body consumes: the PSU futures,
the instant stamped on the synthetic total, and the per-cycle fan and
temperature directory listings. -/
structure CycleEnv where
  gpu : List PSUQuery
  cpu : List PSUQuery
  totalTs : List Char
  fans : List FanEntry
  temps : List TempEntry

/-- One iteration of the main loop body after the stop check: power round
appended, then fan round, then temperature round. -/
def runCycle (env : CycleEnv) (ds : Datasets) : Datasets :=
  let ds1 : Datasets :=
    { ds with psu := append_to_json_file ds.psu (powerRound env.gpu env.cpu env.totalTs) }
  let ds2 : Datasets :=
    { ds1 with fan := append_to_json_file ds1.fan (fanRound env.fans) }
  { ds2 with temp := append_to_json_file ds2.temp (tempRound env.temps) }

/-- Fixed floor on the probe interval (MIN_PROBE_INTERVAL in the source). -/
def MIN_PROBE_INTERVAL : Int := 15

/-- end_time computed once before the loop: collect_duration is used only
when truthy, so a missing duration and a zero duration both yield no end
instant. -/
def compute_end_time (t0 : Int) (collect_duration : Option Int) : Option Int :=
  match collect_duration with
  | none => none
  | some d => if d = 0 then none else some (t0 + d)

/-- Stop check at the top of the loop: fires only when an end instant is
set and the current instant has reached it. -/
def shouldStop (endTime : Option Int) (now : Int) : Bool :=
  match endTime with
  | none => false
  | some e => decide (e ≤ now)

/-- Observable scheduler events: the startup interval check, the single
discovery request, the numbered loop cycles, and the completion exit. -/
inductive Event where
  | intervalCheck (passed : Bool)
  | discovery
  | cycle (n : Nat)
  | completed
deriving DecidableEq

/-- Test for the interval-check event. -/
def isIntervalCheck : Event → Bool
  | Event.intervalCheck _ => true
  | _ => false

/-- Trace of the scheduler loop: each iteration first evaluates the stop
check, and otherwise runs cycle n (advancing time by that cycle's
duration) and then sleeps for the full probe interval.  The fuel
argument truncates the potentially infinite trace. -/
def loopEvents (endTime : Option Int) (probe : Int) (cdur : Nat → Int) :
    Nat → Nat → Int → List Event
  | 0, _, _ => []
  | fuel + 1, n, t =>
    if shouldStop endTime t then [Event.completed]
    else Event.cycle n :: loopEvents endTime probe cdur fuel (n + 1) (t + cdur n + probe)

/-- Observable startup and loop behaviour of main, with the exit code
when the process exits fatally at the interval check: the check runs
first, and only when it passes does discovery and then the loop run. -/
def mainRun (probe : Int) (dur : Option Int) (t0 : Int) (cdur : Nat → Int)
    (fuel : Nat) : List Event × Option Nat :=
  if probe < MIN_PROBE_INTERVAL then ([Event.intervalCheck false], some 1)
  else (Event.intervalCheck true :: Event.discovery ::
    loopEvents (compute_end_time t0 dur) probe cdur fuel 0 t0, none)

theorem replaceAllAux_fuel (pat repl : List Char) :
    ∀ f1 f2 s, s.length ≤ f1 → s.length ≤ f2 →
      replaceAllAux pat repl f1 s = replaceAllAux pat repl f2 s := by
  intro f1
  induction f1 with
  | zero =>
    intro f2 s h1 _
    have hs : s = [] := List.eq_nil_of_length_eq_zero (Nat.le_zero.mp h1)
    subst hs
    cases f2 <;> rfl
  | succ k ih =>
    intro f2 s h1 h2
    cases s with
    | nil => cases f2 <;> rfl
    | cons c cs =>
      cases f2 with
      | zero => simp at h2
      | succ m =>
        simp only [replaceAllAux]
        by_cases hcond : 0 < pat.length ∧ startsWith pat (c :: cs) = true
        · rw [if_pos hcond, if_pos hcond]
          have hlen : (List.drop pat.length (c :: cs)).length ≤ k := by
            simp only [List.length_drop, List.length_cons]
            simp only [List.length_cons] at h1
            omega
          have hlen2 : (List.drop pat.length (c :: cs)).length ≤ m := by
            simp only [List.length_drop, List.length_cons]
            simp only [List.length_cons] at h2
            omega
          rw [ih _ _ hlen hlen2]
        · rw [if_neg hcond, if_neg hcond]
          have hlen : cs.length ≤ k := by
            simp only [List.length_cons] at h1; omega
          have hlen2 : cs.length ≤ m := by
            simp only [List.length_cons] at h2; omega
          rw [ih _ _ hlen hlen2]

theorem replaceAll_nil (pat repl : List Char) : replaceAll pat repl [] = [] := rfl

theorem replaceAll_cons_pos (pat repl : List Char) (c : Char) (cs : List Char)
    (hp : 0 < pat.length) (hs : startsWith pat (c :: cs) = true) :
    replaceAll pat repl (c :: cs) =
      repl ++ replaceAll pat repl (List.drop pat.length (c :: cs)) := by
  show replaceAllAux pat repl (c :: cs).length (c :: cs) = _
  simp only [List.length_cons, replaceAllAux, if_pos (And.intro hp hs)]
  rw [replaceAllAux_fuel pat repl cs.length (List.drop pat.length (c :: cs)).length]
  · rfl
  · simp only [List.length_drop, List.length_cons]; omega
  · exact le_refl _

theorem replaceAll_cons_neg (pat repl : List Char) (c : Char) (cs : List Char)
    (hs : ¬(0 < pat.length ∧ startsWith pat (c :: cs) = true)) :
    replaceAll pat repl (c :: cs) = c :: replaceAll pat repl cs := by
  show replaceAllAux pat repl (c :: cs).length (c :: cs) = _
  simp only [List.length_cons, replaceAllAux, if_neg hs]
  rfl

theorem replaceAll_cons_of_ne (pat repl : List Char) (c : Char) (cs : List Char)
    (hs : startsWith pat (c :: cs) = false) :
    replaceAll pat repl (c :: cs) = c :: replaceAll pat repl cs := by
  apply replaceAll_cons_neg
  intro hcond
  rw [hcond.2] at hs
  cases hs

theorem startsWith_append_self (p t : List Char) : startsWith p (p ++ t) = true := by
  induction p with
  | nil => rfl
  | cons a ps ih => simp [startsWith, ih]

theorem replaceAll_of_not_occursIn (pat repl : List Char) :
    ∀ s, occursIn pat s = false → replaceAll pat repl s = s := by
  intro s
  induction s with
  | nil => intro _; rfl
  | cons c cs ih =>
    intro h
    simp only [occursIn, Bool.or_eq_false_iff] at h
    rw [replaceAll_cons_of_ne pat repl c cs h.1, ih h.2]

theorem replaceAll_append_pat (pat repl rest : List Char) (hp : 0 < pat.length) :
    replaceAll pat repl (pat ++ rest) = repl ++ replaceAll pat repl rest := by
  cases pat with
  | nil => simp at hp
  | cons p ps =>
    rw [List.cons_append,
      replaceAll_cons_pos _ _ _ _ hp
        (by rw [← List.cons_append]; exact startsWith_append_self _ _)]
    rw [show List.drop (p :: ps).length (p :: (ps ++ rest)) = rest by
      rw [← List.cons_append]; exact List.drop_left _ _]

theorem replaceAll_append_of_head_notin (P : Char) (ps repl : List Char) :
    ∀ pre s, (∀ c, c ∈ pre → P ≠ c) →
      replaceAll (P :: ps) repl (pre ++ s) = pre ++ replaceAll (P :: ps) repl s := by
  intro pre
  induction pre with
  | nil => intro s _; rfl
  | cons c cs ih =>
    intro s h
    have hPc : (P == c) = false :=
      beq_eq_false_iff_ne.mpr (h c (List.mem_cons_self c cs))
    rw [List.cons_append, replaceAll_cons_of_ne _ _ _ _ (by simp [startsWith, hPc]),
      ih s (fun d hd => h d (List.mem_cons_of_mem c hd)), List.cons_append]

theorem replaceAll_pair_last (a b : Char) (hab : a ≠ b) (repl : List Char) :
    ∀ base, occursIn [a, b] base = false →
      replaceAll [a, b] repl (base ++ [a, b]) = base ++ repl := by
  intro base
  induction base with
  | nil =>
    intro _
    have h1 := replaceAll_append_pat [a, b] repl [] (by simp)
    rw [List.append_nil] at h1
    simp only [List.nil_append]
    rw [h1, replaceAll_nil, List.append_nil]
  | cons c bs ih =>
    intro h
    simp only [occursIn, Bool.or_eq_false_iff] at h
    have hstep : startsWith [a, b] (c :: (bs ++ [a, b])) = false := by
      cases bs with
      | nil =>
        have hba : (b == a) = false :=
          beq_eq_false_iff_ne.mpr (fun hba => hab hba.symm)
        show (a == c && (b == a && true)) = false
        rw [hba]
        simp
      | cons d bs2 => exact h.1
    rw [List.cons_append, replaceAll_cons_of_ne _ _ _ _ hstep, ih h.2, List.cons_append]

theorem endsWith_append_self (p base : List Char) : endsWith p (base ++ p) = true := by
  unfold endsWith
  rw [List.reverse_append]
  exact startsWith_append_self _ _

theorem foldl_addReading_eq (qs : List PSUQuery) :
    ∀ a : ℚ, qs.foldl addReading a = a + totalOf qs := by
  induction qs with
  | nil => intro a; simp [totalOf]
  | cons q qs ih =>
    intro a
    obtain ⟨u, o⟩ := q
    have hshift : ∀ b : ℚ, addReading b ⟨u, o⟩ = b + addReading 0 ⟨u, o⟩ := by
      intro b
      cases o with
      | ok r ts => cases r <;> simp [addReading]
      | exn => simp [addReading]
    simp only [totalOf, List.foldl_cons]
    rw [ih (addReading a ⟨u, o⟩), ih (addReading 0 ⟨u, o⟩), hshift a]
    ring

theorem totalOf_eq_sum_gpu (qs : List PSUQuery) :
    totalOf qs = ((gpuCollect qs).map fun r => readingValue r.reading).sum := by
  induction qs with
  | nil => simp [totalOf, gpuCollect]
  | cons q qs ih =>
    obtain ⟨u, o⟩ := q
    have h1 : totalOf (⟨u, o⟩ :: qs) = addReading 0 ⟨u, o⟩ + totalOf qs := by
      simp only [totalOf, List.foldl_cons]
      exact foldl_addReading_eq qs _
    cases o with
    | ok r ts =>
      have h2 : gpuCollect (⟨u, Outcome.ok r ts⟩ :: qs)
          = query_psu u true r ts :: gpuCollect qs := rfl
      rw [h1, h2, List.map_cons, List.sum_cons, ih]
      cases r <;> simp [addReading, query_psu, readingValue]
    | exn =>
      have h2 : gpuCollect (⟨u, Outcome.exn⟩ :: qs) = gpuCollect qs := rfl
      rw [h1, h2, ← ih]
      simp [addReading]

theorem totalOf_eq_sum_cpu (qs : List PSUQuery) :
    totalOf qs = ((cpuCollect qs).map fun r => readingValue r.reading).sum := by
  induction qs with
  | nil => simp [totalOf, cpuCollect]
  | cons q qs ih =>
    obtain ⟨u, o⟩ := q
    have h1 : totalOf (⟨u, o⟩ :: qs) = addReading 0 ⟨u, o⟩ + totalOf qs := by
      simp only [totalOf, List.foldl_cons]
      exact foldl_addReading_eq qs _
    cases o with
    | ok r ts =>
      have h2 : cpuCollect (⟨u, Outcome.ok r ts⟩ :: qs)
          = { query_psu u false r ts with
              name := replaceAll "power_".data "".data (query_psu u false r ts).name }
            :: cpuCollect qs := rfl
      rw [h1, h2, List.map_cons, List.sum_cons, ih]
      cases r <;> simp [addReading, query_psu, readingValue]
    | exn =>
      have h2 : cpuCollect (⟨u, Outcome.exn⟩ :: qs) = cpuCollect qs := rfl
      rw [h1, h2, ← ih]
      simp [addReading]

theorem appendBatches_wellFormed :
    ∀ (batches : List (List SensorReading)) (S : List SensorReading),
      appendBatches (FileState.wellFormed S) batches
        = FileState.wellFormed (S ++ batches.flatten) := by
  intro batches
  induction batches with
  | nil => intro S; simp [appendBatches]
  | cons B bs ih =>
    intro S
    have hstep : append_to_json_file (FileState.wellFormed S) B
        = FileState.wellFormed (S ++ B) := rfl
    simp only [appendBatches, List.foldl_cons, hstep]
    have := ih (S ++ B)
    simp only [appendBatches] at this
    rw [this, List.flatten_cons, List.append_assoc]

theorem loopEvents_no_check (endTime : Option Int) (probe : Int) (cdur : Nat → Int) :
    ∀ fuel n t, (loopEvents endTime probe cdur fuel n t).countP isIntervalCheck = 0 := by
  intro fuel
  induction fuel with
  | zero => intro n t; rfl
  | succ k ih =>
    intro n t
    by_cases hs : shouldStop endTime t = true
    · simp [loopEvents, hs, isIntervalCheck, List.countP_cons]
    · simp only [Bool.not_eq_true] at hs
      simp [loopEvents, hs, isIntervalCheck, List.countP_cons, ih]

theorem loopEvents_none_no_completed (probe : Int) (cdur : Nat → Int) :
    ∀ fuel n t, Event.completed ∉ loopEvents none probe cdur fuel n t := by
  intro fuel
  induction fuel with
  | zero => intro n t; simp [loopEvents]
  | succ k ih =>
    intro n t
    have hs : shouldStop (none : Option Int) t = false := rfl
    simp [loopEvents, hs, ih]

theorem loopEvents_none_length (probe : Int) (cdur : Nat → Int) :
    ∀ fuel n t, (loopEvents none probe cdur fuel n t).length = fuel := by
  intro fuel
  induction fuel with
  | zero => intro n t; rfl
  | succ k ih =>
    intro n t
    have hs : shouldStop (none : Option Int) t = false := rfl
    simp [loopEvents, hs, ih]

/-- C2: for every category, appending a batch B to a well-formed dataset
holding the sequence S yields exactly S followed by B, with S preserved
unmodified; appending N batches to an initially empty dataset yields the
concatenation of the batches in cycle order, of length the sum of the
batch sizes.  The last conjunct is the two-record example of the spec. -/
theorem C2_append_concatenates :
    (∀ S B, append_to_json_file (FileState.wellFormed S) B
        = FileState.wellFormed (S ++ B))
    ∧ (∀ batches : List (List SensorReading),
        appendBatches (FileState.wellFormed []) batches
          = FileState.wellFormed batches.flatten)
    ∧ (∀ batches : List (List SensorReading), ∃ final : List SensorReading,
        appendBatches (FileState.wellFormed []) batches = FileState.wellFormed final
          ∧ final.length = (batches.map List.length).sum)
    ∧ append_to_json_file
        (FileState.wellFormed [⟨"A".data, "t1".data, ReadingVal.num 1⟩])
        [⟨"B".data, "t2".data, ReadingVal.num 2⟩]
      = FileState.wellFormed [⟨"A".data, "t1".data, ReadingVal.num 1⟩,
          ⟨"B".data, "t2".data, ReadingVal.num 2⟩] := by
  refine ⟨fun S B => rfl, fun batches => ?_, fun batches => ?_, by decide⟩
  · rw [appendBatches_wellFormed batches [], List.nil_append]
  · refine ⟨batches.flatten, ?_, ?_⟩
    · rw [appendBatches_wellFormed batches [], List.nil_append]
    · simp [List.length_flatten]

/-- C3: an individual query failure is dropped from the batch without
affecting the records contributed by its sibling queries before or after
it, in every category; each successful query's record does appear; and
the cycle proceeds to the fan and temperature categories regardless of
the power outcomes.  The last conjunct shows one failing sensor among
five leaving the other four readings in the batch. -/
theorem C3_partial_failure_isolated :
    (∀ qs1 qs2 u, gpuCollect (qs1 ++ ⟨u, Outcome.exn⟩ :: qs2)
        = gpuCollect qs1 ++ gpuCollect qs2)
    ∧ (∀ qs1 qs2 u, cpuCollect (qs1 ++ ⟨u, Outcome.exn⟩ :: qs2)
        = cpuCollect qs1 ++ cpuCollect qs2)
    ∧ (∀ qs1 qs2 u r ts, gpuCollect (qs1 ++ ⟨u, Outcome.ok r ts⟩ :: qs2)
        = gpuCollect qs1 ++ query_psu u true r ts :: gpuCollect qs2)
    ∧ (∀ fs1 fs2, fanRound (fs1 ++ FanEntry.junk :: fs2)
        = fanRound fs1 ++ fanRound fs2)
    ∧ (∀ es1 es2, tempRound (es1 ++ TempEntry.junk :: es2)
        = tempRound es1 ++ tempRound es2)
    ∧ (∀ env ds, (runCycle env ds).fan = append_to_json_file ds.fan (fanRound env.fans))
    ∧ (∀ env ds, (runCycle env ds).temp = append_to_json_file ds.temp (tempRound env.temps))
    ∧ (gpuCollect [⟨"/a".data, Outcome.ok (ReadingVal.num 1) "t1".data⟩,
        ⟨"/b".data, Outcome.ok (ReadingVal.num 2) "t2".data⟩,
        ⟨"/c".data, Outcome.exn⟩,
        ⟨"/d".data, Outcome.ok (ReadingVal.num 3) "t3".data⟩,
        ⟨"/e".data, Outcome.ok ReadingVal.na "t4".data⟩]).map SensorReading.name
        = ["a".data, "b".data, "d".data, "e".data] := by
  refine ⟨fun qs1 qs2 u => ?_, fun qs1 qs2 u => ?_, fun qs1 qs2 u r ts => ?_,
    fun fs1 fs2 => ?_, fun es1 es2 => ?_, fun env ds => rfl, fun env ds => rfl, by decide⟩
  · unfold gpuCollect
    rw [List.filterMap_append]
    rfl
  · unfold cpuCollect
    rw [List.filterMap_append]
    rfl
  · unfold gpuCollect
    rw [List.filterMap_append]
    rfl
  · unfold fanRound
    rw [List.filterMap_append]
    rfl
  · unfold tempRound
    rw [List.filterMap_append]
    rfl

/-- C4: the power round appends one synthetic reading named Total Power
in W to the same batch, whose value is the accumulated total; the
accumulated total equals the sum of the numeric readings of the records
collected that round, with the sentinel contributing zero; and for the
readings 5, sentinel, 10 in one cycle the total is 15. -/
theorem C4_total_power_aggregation :
    (∀ gpu cpu ts, powerRound gpu cpu ts
        = gpuCollect gpu ++ cpuCollect cpu
          ++ [{ name := "Total Power in W".data, timestamp := ts,
                reading := ReadingVal.num (totalOf gpu + totalOf cpu) }])
    ∧ (∀ qs, totalOf qs = ((gpuCollect qs).map fun r => readingValue r.reading).sum)
    ∧ (∀ qs, totalOf qs = ((cpuCollect qs).map fun r => readingValue r.reading).sum)
    ∧ totalOf [⟨"/a".data, Outcome.ok (ReadingVal.num 5) "t".data⟩,
          ⟨"/b".data, Outcome.ok ReadingVal.na "t".data⟩]
        + totalOf [⟨"/c".data, Outcome.ok (ReadingVal.num 10) "t".data⟩] = 15 := by
  refine ⟨fun gpu cpu ts => ?_, totalOf_eq_sum_gpu, totalOf_eq_sum_cpu,
    by norm_num [totalOf, addReading]⟩
  unfold powerRound
  rw [foldl_addReading_eq cpu (gpu.foldl addReading 0)]
  rfl

/-- C5: a dataset file that is missing, holds only whitespace, or holds
text the JSON decoder rejects is treated as the empty prior sequence:
the append writes the batch as a fresh well-formed sequence instead of
raising, the operation always produces a well-formed file, and later
appends extend that fresh sequence normally. -/
theorem C5_corrupt_or_missing_file_not_fatal :
    (∀ B, append_to_json_file FileState.absent B = FileState.wellFormed B)
    ∧ (∀ B, append_to_json_file FileState.blank B = FileState.wellFormed B)
    ∧ (∀ B, append_to_json_file FileState.malformed B = FileState.wellFormed B)
    ∧ (∀ fs B, ∃ rs, append_to_json_file fs B = FileState.wellFormed rs)
    ∧ (∀ B B2, append_to_json_file (append_to_json_file FileState.malformed B) B2
        = FileState.wellFormed (B ++ B2)) :=
  ⟨fun _ => rfl, fun _ => rfl, fun _ => rfl,
   fun fs B => ⟨readExisting fs ++ B, rfl⟩, fun _ _ => rfl⟩

/-- C10: supplying the optional duration with the value 0 computes no end
instant, exactly as if the flag had been omitted, and the loop then
never transitions to Completed and keeps running one cycle per
iteration, however far the trace is unrolled. -/
theorem C10_zero_duration_runs_forever (t0 : Int) :
    compute_end_time t0 (some 0) = none
    ∧ compute_end_time t0 (some 0) = compute_end_time t0 none
    ∧ (∀ probe cdur fuel n t,
        Event.completed ∉ loopEvents (compute_end_time t0 (some 0)) probe cdur fuel n t)
    ∧ (∀ probe cdur fuel n t,
        (loopEvents (compute_end_time t0 (some 0)) probe cdur fuel n t).length = fuel) := by
  have h0 : compute_end_time t0 (some 0) = none := by simp [compute_end_time]
  refine ⟨h0, by rw [h0]; rfl, ?_, ?_⟩
  · intro probe cdur fuel n t
    rw [h0]
    exact loopEvents_none_no_completed probe cdur fuel n t
  · intro probe cdur fuel n t
    rw [h0]
    exact loopEvents_none_length probe cdur fuel n t

/-- C1 (amended): accelerator-tray PSU ids have every occurrence of the
vendor pattern power_PWR_PDB_PSU replaced by GPU_TRAY_PSU with no
further rewriting in the collection loop; compute-tray ids have every
occurrence of PWR_MB_PSU replaced by CPU_TRAY_PSU, and the further pass
that strips a residual power_ prefix is applied to the compute-tray
names, not the accelerator-tray names. -/
theorem C1_psu_normalization (rest restc : List Char)
    (h1 : occursIn "power_PWR_PDB_PSU".data rest = false)
    (h2 : occursIn "PWR_MB_PSU".data restc = false)
    (h3 : occursIn "power_".data ("CPU_TRAY_PSU".data ++ restc) = false) :
    parse_psu_name ("power_PWR_PDB_PSU".data ++ rest) true
        = "GPU_TRAY_PSU".data ++ rest
    ∧ replaceAll "power_".data "".data
        (parse_psu_name ("power_PWR_MB_PSU".data ++ restc) false)
        = "CPU_TRAY_PSU".data ++ restc
    ∧ (∀ url r ts, gpuCollect [⟨url, Outcome.ok r ts⟩] = [query_psu url true r ts])
    ∧ (∀ url r ts, cpuCollect [⟨url, Outcome.ok r ts⟩]
        = [{ name := replaceAll "power_".data "".data (query_psu url false r ts).name,
             timestamp := ts, reading := r }]) := by
  refine ⟨?_, ?_, fun url r ts => rfl, fun url r ts => rfl⟩
  · show replaceAll "power_PWR_PDB_PSU".data "GPU_TRAY_PSU".data
      ("power_PWR_PDB_PSU".data ++ rest) = _
    rw [replaceAll_append_pat _ _ _ (by decide),
      replaceAll_of_not_occursIn _ _ _ h1]
  · have hsplit : "power_PWR_MB_PSU".data ++ restc
        = "power_".data ++ ("PWR_MB_PSU".data ++ restc) := by
      rw [show ("power_PWR_MB_PSU".data : List Char)
        = "power_".data ++ "PWR_MB_PSU".data by decide, List.append_assoc]
    have hpat : ("PWR_MB_PSU".data : List Char) = 'P' :: "WR_MB_PSU".data := by decide
    have hparse : parse_psu_name ("power_PWR_MB_PSU".data ++ restc) false
        = "power_".data ++ ("CPU_TRAY_PSU".data ++ restc) := by
      show replaceAll "PWR_MB_PSU".data "CPU_TRAY_PSU".data
        ("power_PWR_MB_PSU".data ++ restc) = _
      rw [hsplit, hpat,
        replaceAll_append_of_head_notin 'P' "WR_MB_PSU".data "CPU_TRAY_PSU".data
          "power_".data _ (by decide),
        ← hpat, replaceAll_append_pat _ _ _ (by decide),
        replaceAll_of_not_occursIn _ _ _ h2]
    rw [hparse, replaceAll_append_pat _ _ _ (by decide),
      replaceAll_of_not_occursIn _ _ _ h3]
    rfl

/-- C1 counterexample: the member id power_PWR_PDB_X is classified as an
accelerator-tray endpoint and keeps its power_ prefix through the
collection loop (no residual strip on accelerator-tray names), while the
compute-tray member id power_PWR_MB_PSU0 has its residual power_ prefix
stripped in the collection loop, the opposite of what the claim states. -/
theorem C1_counterexample :
    get_psu_endpoints ["/s/power_PWR_PDB_X".data, "/s/power_PWR_MB_PSU0".data]
      = (["/s/power_PWR_PDB_X".data], ["/s/power_PWR_MB_PSU0".data])
    ∧ (gpuCollect [⟨"/s/power_PWR_PDB_X".data,
          Outcome.ok (ReadingVal.num 1) "t".data⟩]).map SensorReading.name
        = ["power_PWR_PDB_X".data]
    ∧ startsWith "power_".data "power_PWR_PDB_X".data = true
    ∧ (cpuCollect [⟨"/s/power_PWR_MB_PSU0".data,
          Outcome.ok (ReadingVal.num 1) "t".data⟩]).map SensorReading.name
        = ["CPU_TRAY_PSU0".data]
    ∧ parse_psu_name "power_PWR_MB_PSU0".data false = "power_CPU_TRAY_PSU0".data
    ∧ ("CPU_TRAY_PSU0".data : List Char) ≠ "power_CPU_TRAY_PSU0".data := by
  decide

/-- C1 witness: the amended statement evaluated at the concrete raw ids
power_PWR_PDB_PSU0 and power_PWR_MB_PSU0. -/
theorem C1_witness :
    (occursIn "power_PWR_PDB_PSU".data "0".data = false
      ∧ occursIn "PWR_MB_PSU".data "0".data = false
      ∧ occursIn "power_".data ("CPU_TRAY_PSU".data ++ "0".data) = false)
    ∧ (parse_psu_name ("power_PWR_PDB_PSU".data ++ "0".data) true
          = "GPU_TRAY_PSU".data ++ "0".data
      ∧ replaceAll "power_".data "".data
          (parse_psu_name ("power_PWR_MB_PSU".data ++ "0".data) false)
          = "CPU_TRAY_PSU".data ++ "0".data
      ∧ (∀ url r ts, gpuCollect [⟨url, Outcome.ok r ts⟩] = [query_psu url true r ts])
      ∧ (∀ url r ts, cpuCollect [⟨url, Outcome.ok r ts⟩]
          = [{ name := replaceAll "power_".data "".data (query_psu url false r ts).name,
               timestamp := ts, reading := r }])) :=
  ⟨⟨by decide, by decide, by decide⟩,
   C1_psu_normalization "0".data "0".data (by decide) (by decide) (by decide)⟩

/-- C6: with an end instant configured (nonzero budget d) and d smaller
than the probe interval, the loop trace is either an immediate
transition to Completed with zero cycles, or exactly one cycle followed
by the transition to Completed; a second cycle is never begun, for any
amount of remaining fuel, because the stop check runs before each cycle
and the full interval sleep follows each cycle. -/
theorem C6_short_budget_at_most_one_cycle (t0 t1 d probe : Int) (cdur : Nat → Int)
    (fuel : Nat) (hd0 : d ≠ 0) (hdp : d < probe) (ht : t0 ≤ t1)
    (hc : ∀ n, 0 ≤ cdur n) :
    loopEvents (compute_end_time t0 (some d)) probe cdur (fuel + 2) 0 t1
        = [Event.completed]
    ∨ loopEvents (compute_end_time t0 (some d)) probe cdur (fuel + 2) 0 t1
        = [Event.cycle 0, Event.completed] := by
  have he : compute_end_time t0 (some d) = some (t0 + d) := by
    simp [compute_end_time, hd0]
  rw [he]
  have hf : fuel + 2 = (fuel + 1) + 1 := rfl
  rw [hf]
  by_cases h1 : t0 + d ≤ t1
  · left
    have hs : shouldStop (some (t0 + d)) t1 = true := by
      simp [shouldStop, h1]
    simp [loopEvents, hs]
  · right
    have hs1 : shouldStop (some (t0 + d)) t1 = false := by
      simp [shouldStop, h1]
    have hs2 : shouldStop (some (t0 + d)) (t1 + cdur 0 + probe) = true := by
      have := hc 0
      simp only [shouldStop, decide_eq_true_eq]
      omega
    simp [loopEvents, hs1, hs2]

/-- C6 witness: budget 5, interval 15, zero-length cycles starting at the
instant the end instant was computed: exactly one cycle then Completed. -/
theorem C6_witness :
    ((5 : Int) ≠ 0 ∧ (5 : Int) < 15 ∧ (0 : Int) ≤ 0 ∧ ∀ n : Nat, (0 : Int) ≤ 0)
    ∧ (loopEvents (compute_end_time 0 (some 5)) 15 (fun _ => 0) 2 0 0
          = [Event.completed]
      ∨ loopEvents (compute_end_time 0 (some 5)) 15 (fun _ => 0) 2 0 0
          = [Event.cycle 0, Event.completed]) :=
  ⟨⟨by decide, by decide, by decide, fun _ => le_refl 0⟩,
   C6_short_budget_at_most_one_cycle 0 0 5 15 (fun _ => 0) 0
     (by decide) (by decide) (by decide) (fun _ => le_refl 0)⟩

/-- C7: a probe interval below the fixed floor of 15 makes main exit
fatally with code 1 immediately after the interval check: the trace
holds no discovery request and no cycle.  Moreover, on every run the
interval check appears exactly once in the trace, before the loop, and
never inside it. -/
theorem C7_subfloor_interval_fatal (probe : Int) (dur : Option Int) (t0 : Int)
    (cdur : Nat → Int) (fuel : Nat) (h : probe < MIN_PROBE_INTERVAL) :
    (mainRun probe dur t0 cdur fuel).1 = [Event.intervalCheck false]
    ∧ (mainRun probe dur t0 cdur fuel).2 = some 1
    ∧ Event.discovery ∉ (mainRun probe dur t0 cdur fuel).1
    ∧ (∀ n, Event.cycle n ∉ (mainRun probe dur t0 cdur fuel).1)
    ∧ (∀ p2 d2 t02 c2 f2,
        ((mainRun p2 d2 t02 c2 f2).1.countP isIntervalCheck) = 1) := by
  have hm : mainRun probe dur t0 cdur fuel = ([Event.intervalCheck false], some 1) := by
    simp [mainRun, h]
  refine ⟨by rw [hm], by rw [hm], by rw [hm]; simp,
    fun _ => by rw [hm]; simp, fun p2 d2 t02 c2 f2 => ?_⟩
  unfold mainRun
  by_cases h2 : p2 < MIN_PROBE_INTERVAL
  · rw [if_pos h2]
    rfl
  · rw [if_neg h2]
    simp [List.countP_cons, isIntervalCheck, loopEvents_no_check]

/-- C7 witness: the spec example interval of 10 seconds, with arbitrary
other configuration: fatal exit code 1 and no network call in the trace. -/
theorem C7_witness :
    ((10 : Int) < MIN_PROBE_INTERVAL)
    ∧ (mainRun 10 none 0 (fun _ => 0) 3).1 = [Event.intervalCheck false]
    ∧ (mainRun 10 none 0 (fun _ => 0) 3).2 = some 1
    ∧ Event.discovery ∉ (mainRun 10 none 0 (fun _ => 0) 3).1 :=
  ⟨by decide,
   (C7_subfloor_interval_fatal 10 none 0 (fun _ => 0) 3 (by decide)).1,
   (C7_subfloor_interval_fatal 10 none 0 (fun _ => 0) 3 (by decide)).2.1,
   (C7_subfloor_interval_fatal 10 none 0 (fun _ => 0) 3 (by decide)).2.2.1⟩

/-- C8 (amended): fan normalization removes every occurrence of SPD_;
when the result ends with _F (resp. _R) it rewrites every occurrence of
_F (resp. _R), not only the trailing one, with the blank-prefixed Front
(Rear) form; identifiers without either trailing suffix pass through
unchanged apart from the SPD_ removal.  When the trailing marker is the
only occurrence, this agrees with the claim: stated here for every id
whose only _F (resp. _R) occurrence is the trailing one. -/
theorem C8_fan_suffix_rewrite (base baser m : List Char)
    (h1 : occursIn "SPD_".data (base ++ "_F".data) = false)
    (h2 : occursIn "_F".data base = false)
    (h3 : occursIn "SPD_".data (baser ++ "_R".data) = false)
    (h4 : occursIn "_R".data baser = false)
    (h5 : occursIn "SPD_".data m = false)
    (h6 : endsWith "_F".data m = false)
    (h7 : endsWith "_R".data m = false) :
    parse_fan_name (base ++ "_F".data) = base ++ " Front".data
    ∧ parse_fan_name (baser ++ "_R".data) = baser ++ " Rear".data
    ∧ parse_fan_name m = m := by
  refine ⟨?_, ?_, ?_⟩
  · unfold parse_fan_name
    rw [replaceAll_of_not_occursIn _ _ _ h1]
    have hf : endsWith "_F".data (base ++ "_F".data) = true := endsWith_append_self _ _
    rw [if_pos hf]
    exact replaceAll_pair_last '_' 'F' (by decide) " Front".data base h2
  · unfold parse_fan_name
    rw [replaceAll_of_not_occursIn _ _ _ h3]
    have hFR : endsWith "_F".data (baser ++ "_R".data) = false := by
      show startsWith ("_F".data).reverse (baser ++ "_R".data).reverse = false
      rw [List.reverse_append]
      show (('F' == 'R') && _) = false
      rw [show ('F' == 'R') = false from by decide]
      exact Bool.false_and _
    rw [if_neg (by simp [hFR])]
    have hr : endsWith "_R".data (baser ++ "_R".data) = true := endsWith_append_self _ _
    rw [if_pos hr]
    exact replaceAll_pair_last '_' 'R' (by decide) " Rear".data baser h4
  · unfold parse_fan_name
    rw [replaceAll_of_not_occursIn _ _ _ h5, if_neg (by simp [h6]),
      if_neg (by simp [h7])]

/-- C8 counterexample: for the raw id SPD_FAN_F1_F the code rewrites the
interior _F occurrence as well, yielding FAN Front1 Front, while the
claim (interior occurrences left intact) predicts FAN_F1 Front. -/
theorem C8_counterexample :
    parse_fan_name "SPD_FAN_F1_F".data = "FAN Front1 Front".data
    ∧ parse_fan_name_claimed "SPD_FAN_F1_F".data = "FAN_F1 Front".data
    ∧ parse_fan_name "SPD_FAN_F1_F".data ≠ parse_fan_name_claimed "SPD_FAN_F1_F".data := by
  decide

/-- C8 witness: the amended statement evaluated at the concrete raw ids
FAN0_F, FAN1_R and BP_TEMP. -/
theorem C8_witness :
    (occursIn "SPD_".data ("FAN0".data ++ "_F".data) = false
      ∧ occursIn "_F".data "FAN0".data = false
      ∧ occursIn "SPD_".data ("FAN1".data ++ "_R".data) = false
      ∧ occursIn "_R".data "FAN1".data = false
      ∧ occursIn "SPD_".data "BP_TEMP".data = false
      ∧ endsWith "_F".data "BP_TEMP".data = false
      ∧ endsWith "_R".data "BP_TEMP".data = false)
    ∧ (parse_fan_name ("FAN0".data ++ "_F".data) = "FAN0".data ++ " Front".data
      ∧ parse_fan_name ("FAN1".data ++ "_R".data) = "FAN1".data ++ " Rear".data
      ∧ parse_fan_name "BP_TEMP".data = "BP_TEMP".data) :=
  ⟨⟨by decide, by decide, by decide, by decide, by decide, by decide, by decide⟩,
   C8_fan_suffix_rewrite "FAN0".data "FAN1".data "BP_TEMP".data
     (by decide) (by decide) (by decide) (by decide) (by decide) (by decide) (by decide)⟩

/-- C9 (amended): each category's normalization is a no-op on any name
free of that category's raw markers, and hence idempotent on such names.
Idempotence on every canonical name fails, because a rewrite can itself
re-create a raw marker (see the counterexample). -/
theorem C9_normalization_noop_on_marker_free (mp mf mt : List Char)
    (h1 : occursIn "power_PWR_PDB_PSU".data mp = false)
    (h2 : occursIn "PWR_MB_PSU".data mp = false)
    (h3 : occursIn "SPD_".data mf = false)
    (h4 : endsWith "_F".data mf = false)
    (h5 : endsWith "_R".data mf = false)
    (h6 : occursIn "TEMP_PDB_PSU".data mt = false)
    (h7 : occursIn "TEMP_MB_PSU".data mt = false) :
    parse_psu_name mp true = mp
    ∧ parse_psu_name mp false = mp
    ∧ parse_fan_name mf = mf
    ∧ parse_temp_name mt = mt := by
  refine ⟨?_, ?_, ?_, ?_⟩
  · show replaceAll "power_PWR_PDB_PSU".data "GPU_TRAY_PSU".data mp = mp
    exact replaceAll_of_not_occursIn _ _ _ h1
  · show replaceAll "PWR_MB_PSU".data "CPU_TRAY_PSU".data mp = mp
    exact replaceAll_of_not_occursIn _ _ _ h2
  · unfold parse_fan_name
    rw [replaceAll_of_not_occursIn _ _ _ h3, if_neg (by simp [h4]),
      if_neg (by simp [h5])]
  · unfold parse_temp_name
    rw [if_neg (by simp [h6]), if_neg (by simp [h7])]

/-- C9 counterexample: the fan raw id SPSPD_D_ normalizes to SPD_, an
already-canonical name on which the normalization is not a no-op: it
normalizes again to the empty name. -/
theorem C9_counterexample :
    parse_fan_name "SPSPD_D_".data = "SPD_".data
    ∧ parse_fan_name (parse_fan_name "SPSPD_D_".data) = []
    ∧ parse_fan_name (parse_fan_name "SPSPD_D_".data) ≠ parse_fan_name "SPSPD_D_".data := by
  decide

/-- C9 witness: the amended statement evaluated at the concrete canonical
names GPU_TRAY_PSU0, FAN0 Front and TEMP_GPU_TRAY_PSU0. -/
theorem C9_witness :
    (occursIn "power_PWR_PDB_PSU".data "GPU_TRAY_PSU0".data = false
      ∧ occursIn "PWR_MB_PSU".data "GPU_TRAY_PSU0".data = false
      ∧ occursIn "SPD_".data "FAN0 Front".data = false
      ∧ endsWith "_F".data "FAN0 Front".data = false
      ∧ endsWith "_R".data "FAN0 Front".data = false
      ∧ occursIn "TEMP_PDB_PSU".data "TEMP_GPU_TRAY_PSU0".data = false
      ∧ occursIn "TEMP_MB_PSU".data "TEMP_GPU_TRAY_PSU0".data = false)
    ∧ (parse_psu_name "GPU_TRAY_PSU0".data true = "GPU_TRAY_PSU0".data
      ∧ parse_psu_name "GPU_TRAY_PSU0".data false = "GPU_TRAY_PSU0".data
      ∧ parse_fan_name "FAN0 Front".data = "FAN0 Front".data
      ∧ parse_temp_name "TEMP_GPU_TRAY_PSU0".data = "TEMP_GPU_TRAY_PSU0".data) :=
  ⟨⟨by decide, by decide, by decide, by decide, by decide, by decide, by decide⟩,
   C9_normalization_noop_on_marker_free "GPU_TRAY_PSU0".data "FAN0 Front".data
     "TEMP_GPU_TRAY_PSU0".data
     (by decide) (by decide) (by decide) (by decide) (by decide) (by decide) (by decide)⟩

end GetStats
